import Mathlib

/-!
Verification of the credential-cipher and metrics-refresh core of the AppMRR
repository (an Astro + Supabase leaderboard that stores encrypted RevenueCat
API keys and refreshes revenue metrics from a daily cron endpoint).

The embedding is shallow: JavaScript strings are modelled as `List Char`,
byte buffers as `List Nat` (each entry a byte), numbers as `Int`, and every
effectful collaborator (Node crypto primitives, the external RevenueCat HTTP
endpoint, the Supabase datastore) is an explicit parameter, so that each
source function becomes a pure Lean function of its inputs plus those
collaborators.  Exceptions in the source become `Except` / sum results.

Modelled source files:
  - src/lib/encryption.ts   (getEncryptionKey, encryptApiKey, decryptApiKey)
  - src/lib/revenuecat.ts   (fetchRevenueCatMetrics, validateRevenueCatApiKey)
  - src/lib/db.ts           (list / upsert / delete operations, isProjectIdTaken)
  - src/pages/api/cron/update-metrics.ts (the authorized path of GET)
  - src/pages/api/appstore/icon.ts       (the POST registration flow)
-/

/-! ## JavaScript string helpers -/

/-- Model of the JavaScript `String.prototype.split` with a single-character
separator, over strings as `List Char`.  Splitting the empty string yields
one empty field, exactly as in JavaScript. -/
def splitChar (sep : Char) : List Char → List (List Char)
  | [] => [[]]
  | c :: rest =>
    if c = sep then [] :: splitChar sep rest
    else
      match splitChar sep rest with
      | [] => [[c]]
      | h :: t => (c :: h) :: t

/-- Number of occurrences of the colon character in a string; used to state
the malformed-token condition of `decryptApiKey`. -/
def countColons (s : List Char) : Nat := s.countP (fun c => c = ':')

theorem splitChar_ne_nil (sep : Char) (s : List Char) : splitChar sep s ≠ [] := by
  induction s with
  | nil => simp [splitChar]
  | cons c rest ih =>
    simp only [splitChar]
    split
    · simp
    · split
      · simp
      · simp

theorem splitChar_length (sep : Char) (s : List Char) :
    (splitChar sep s).length = s.countP (fun c => c = sep) + 1 := by
  induction s with
  | nil => simp [splitChar]
  | cons c rest ih =>
    simp only [splitChar]
    by_cases hc : c = sep
    · simp [hc, List.countP_cons, ih]
    · simp only [if_neg hc]
      rcases hsp : splitChar sep rest with _ | ⟨h, t⟩
      · exact absurd hsp (splitChar_ne_nil sep rest)
      · have := ih
        rw [hsp] at this
        simp [List.countP_cons, hc, ← this]

theorem splitChar_no_sep (sep : Char) (a : List Char) (h : sep ∉ a) :
    splitChar sep a = [a] := by
  induction a with
  | nil => simp [splitChar]
  | cons c rest ih =>
    have hc : ¬ c = sep := fun hcc => h (hcc ▸ List.mem_cons_self c rest)
    have hrest : sep ∉ rest := fun hm => h (List.mem_cons_of_mem c hm)
    simp only [splitChar, if_neg hc, ih hrest]

theorem splitChar_append (sep : Char) (a rest : List Char) (h : sep ∉ a) :
    splitChar sep (a ++ sep :: rest) = a :: splitChar sep rest := by
  induction a with
  | nil => simp [splitChar]
  | cons c tl ih =>
    have hc : ¬ c = sep := fun hcc => h (hcc ▸ List.mem_cons_self c tl)
    have htl : sep ∉ tl := fun hm => h (List.mem_cons_of_mem c hm)
    simp only [List.cons_append, splitChar, if_neg hc, List.append_eq, ih htl]

/-! ## Hex encoding (Buffer.toString and Buffer.from with encoding hex) -/

/-- One lowercase hex digit, as produced by Node `Buffer.prototype.toString`
with the hex encoding (digits 0-9 then a-f). -/
def hexDigit (n : Nat) : Char :=
  if n < 10 then Char.ofNat (48 + n) else Char.ofNat (87 + n)

/-- Two hex digits for one byte. -/
def byteToHex (b : Nat) : List Char := [hexDigit (b / 16), hexDigit (b % 16)]

/-- Model of `buf.toString(\x27hex\x27)`: lowercase hex, two digits per byte. -/
def bytesToHex : List Nat → List Char
  | [] => []
  | b :: bs => byteToHex b ++ bytesToHex bs

/-- Numeric value of a hex digit character, if it is one. -/
def hexVal (c : Char) : Option Nat :=
  if 48 ≤ c.toNat ∧ c.toNat ≤ 57 then some (c.toNat - 48)
  else if 97 ≤ c.toNat ∧ c.toNat ≤ 102 then some (c.toNat - 87)
  else if 65 ≤ c.toNat ∧ c.toNat ≤ 70 then some (c.toNat - 55)
  else none

/-- Model of `Buffer.from(s, \x27hex\x27)`: consumes pairs of hex digits and
stops (truncating, without throwing) at the first pair that is not valid
hex or at a trailing odd digit, as Node does. -/
def hexToBytes : List Char → List Nat
  | c1 :: c2 :: rest =>
    match hexVal c1, hexVal c2 with
    | some h, some l => (16 * h + l) :: hexToBytes rest
    | _, _ => []
  | _ => []

theorem hexVal_hexDigit (n : Nat) (h : n < 16) : hexVal (hexDigit n) = some n := by
  interval_cases n <;> decide

theorem hexDigit_ne_colon (n : Nat) (h : n < 16) : hexDigit n ≠ ':' := by
  interval_cases n <;> decide

theorem colon_not_mem_bytesToHex (bs : List Nat) (h : ∀ b ∈ bs, b < 256) :
    (':' : Char) ∉ bytesToHex bs := by
  induction bs with
  | nil => simp [bytesToHex]
  | cons b tl ih =>
    have hb : b < 256 := h b (List.mem_cons_self b tl)
    have htl : ∀ x ∈ tl, x < 256 := fun x hx => h x (List.mem_cons_of_mem b hx)
    have h1 : b / 16 < 16 := by omega
    have h2 : b % 16 < 16 := Nat.mod_lt b (by omega)
    simp only [bytesToHex, byteToHex, List.cons_append, List.mem_cons, List.nil_append]
    push_neg
    exact ⟨(hexDigit_ne_colon _ h1).symm, (hexDigit_ne_colon _ h2).symm, ih htl⟩

theorem hexToBytes_bytesToHex (bs : List Nat) (h : ∀ b ∈ bs, b < 256) :
    hexToBytes (bytesToHex bs) = bs := by
  induction bs with
  | nil => simp [bytesToHex, hexToBytes]
  | cons b tl ih =>
    have hb : b < 256 := h b (List.mem_cons_self b tl)
    have htl : ∀ x ∈ tl, x < 256 := fun x hx => h x (List.mem_cons_of_mem b hx)
    have h1 : b / 16 < 16 := by omega
    have h2 : b % 16 < 16 := Nat.mod_lt b (by omega)
    simp only [bytesToHex, byteToHex, List.cons_append, List.nil_append, List.append_eq,
      hexToBytes, hexVal_hexDigit _ h1, hexVal_hexDigit _ h2, ih htl]
    congr 1
    omega

/-! ## Credential Cipher (src/lib/encryption.ts) -/

/-- The Node crypto primitives used by encryption.ts, as abstract parameters:
`pbkdf2` is `crypto.pbkdf2Sync(password, salt, 100000, 32, sha512)`;
`gcmEnc key iv plaintext` is the AES-256-GCM encryption returning the
ciphertext bytes and the authentication tag; `gcmDec key iv tag ciphertext`
is the corresponding decryption, returning the thrown message on any
authentication or cipher-state failure. -/
structure Crypto where
  pbkdf2 : List Char → List Nat → List Nat
  gcmEnc : List Nat → List Nat → List Char → List Nat × List Nat
  gcmDec : List Nat → List Nat → List Nat → List Nat → Except (List Char) (List Char)

/-- Failure kinds of `decryptApiKey`, by throw site in the source:
the four-field format check, the missing ENCRYPTION_KEY throw inside
`getEncryptionKey`, and any failure of the AES-256-GCM decryption. -/
inductive DecryptErr where
  | malformedToken
  | missingKey
  | authFailure (msg : List Char)
deriving DecidableEq

/-- The message of the error rethrown by the catch-all in `decryptApiKey`
(`Failed to decrypt API key: ` plus the inner message); this is the string
the cron job records in its error report for a failed entry. -/
def DecryptErr.message : DecryptErr → List Char
  | .malformedToken => ("Failed to decrypt API key: Invalid encrypted API key format").toList
  | .missingKey =>
      ("Failed to decrypt API key: ENCRYPTION_KEY is not set in environment variables").toList
  | .authFailure m => ("Failed to decrypt API key: ").toList ++ m

/-- Model of `getEncryptionKey` in encryption.ts: the environment lookup for
ENCRYPTION_KEY (the two environment mechanisms merged into one `Option`);
an absent or empty value is falsy in JavaScript and throws. -/
def getEncryptionKey (env : Option (List Char)) : Except (List Char) (List Char) :=
  match env with
  | some key =>
      if key = [] then .error ("ENCRYPTION_KEY is not set in environment variables").toList
      else .ok key
  | none => .error ("ENCRYPTION_KEY is not set in environment variables").toList

/-- Model of `encryptApiKey` in encryption.ts.  The fresh random salt
(64 bytes) and IV (16 bytes) drawn from `crypto.randomBytes` are explicit
arguments; the result token is `saltHex:ivHex:tagHex:ciphertextHex`.
A missing ENCRYPTION_KEY is rethrown by the catch-all with the
`Failed to encrypt API key: ` prefix. -/
def encryptApiKey (C : Crypto) (env : Option (List Char)) (salt iv : List Nat)
    (apiKey : List Char) : Except (List Char) (List Char) :=
  match getEncryptionKey env with
  | .error e => .error (("Failed to encrypt API key: ").toList ++ e)
  | .ok password =>
    let key := C.pbkdf2 password salt
    let ct := (C.gcmEnc key iv apiKey).1
    let tag := (C.gcmEnc key iv apiKey).2
    .ok (bytesToHex salt ++ (':' :: (bytesToHex iv ++ (':' :: (bytesToHex tag
          ++ (':' :: bytesToHex ct))))))

/-- Model of `decryptApiKey` in encryption.ts: split the token on colons,
require exactly four fields, hex-decode them, re-derive the key from the
extracted salt and the environment master secret, then decrypt and verify
the tag.  The field-count check precedes the environment lookup, exactly as
in the source. -/
def decryptApiKey (C : Crypto) (env : Option (List Char)) (tok : List Char) :
    Except DecryptErr (List Char) :=
  match splitChar ':' tok with
  | [saltHex, ivHex, tagHex, ctHex] =>
    let salt := hexToBytes saltHex
    let iv := hexToBytes ivHex
    let tag := hexToBytes tagHex
    let ct := hexToBytes ctHex
    match getEncryptionKey env with
    | .error _ => .error .missingKey
    | .ok password =>
      let key := C.pbkdf2 password salt
      match C.gcmDec key iv tag ct with
      | .ok pt => .ok pt
      | .error m => .error (.authFailure m)
  | _ => .error .malformedToken

/-- Claim C6: every input string whose number of colon-separated fields is
not exactly four — equivalently, that does not contain exactly three
colons — makes `decryptApiKey` fail with the malformed-token error
(`Invalid encrypted API key format`), regardless of the master secret. -/
theorem decrypt_malformed_of_not_three_colons (C : Crypto) (env : Option (List Char))
    (s : List Char) (h : countColons s ≠ 3) :
    decryptApiKey C env s = .error .malformedToken := by
  have hlen : (splitChar ':' s).length ≠ 4 := by
    rw [splitChar_length]
    simpa [countColons] using h
  unfold decryptApiKey
  rcases hsp : splitChar ':' s with _ | ⟨a, _ | ⟨b, _ | ⟨c, _ | ⟨d, _ | ⟨e, t⟩⟩⟩⟩⟩ <;>
    simp_all

/-- Witness for C6 at the concrete token `ab:cd` (one colon). -/
theorem decrypt_malformed_witness :
    countColons ("ab:cd").toList ≠ 3 ∧
      decryptApiKey ⟨fun _ _ => [], fun _ _ _ => ([], []), fun _ _ _ _ => .error []⟩
        none ("ab:cd").toList = .error .malformedToken :=
  ⟨by decide,
   decrypt_malformed_of_not_three_colons _ none _ (by decide)⟩

/-- Claim C2: for every plaintext P and master secret K present in
configuration, and for every choice of the fresh random salt and nonce,
decrypting the token produced by `encryptApiKey` under the same K returns
exactly P.  The AES-256-GCM primitives are abstract, so the round-trip
property of the cipher itself, and the fact that it emits bytes, are
hypotheses (they hold of the Node crypto library); what is proved is that
the serialization, colon-splitting, hex round-trip, and re-derivation of
the key from the stored salt in encryption.ts preserve the plaintext. -/
theorem decrypt_encrypt_roundtrip (C : Crypto) (K : List Char) (salt iv : List Nat)
    (P : List Char) (hK : K ≠ [])
    (hsalt : ∀ b ∈ salt, b < 256) (hiv : ∀ b ∈ iv, b < 256)
    (hct : ∀ b ∈ (C.gcmEnc (C.pbkdf2 K salt) iv P).1, b < 256)
    (htag : ∀ b ∈ (C.gcmEnc (C.pbkdf2 K salt) iv P).2, b < 256)
    (hgcm : C.gcmDec (C.pbkdf2 K salt) iv (C.gcmEnc (C.pbkdf2 K salt) iv P).2
              (C.gcmEnc (C.pbkdf2 K salt) iv P).1 = .ok P) :
    ∃ tok, encryptApiKey C (some K) salt iv P = .ok tok ∧
      decryptApiKey C (some K) tok = .ok P := by
  have hkey : getEncryptionKey (some K) = .ok K := by
    simp [getEncryptionKey, hK]
  refine ⟨bytesToHex salt ++ (':' :: (bytesToHex iv
      ++ (':' :: (bytesToHex (C.gcmEnc (C.pbkdf2 K salt) iv P).2
      ++ (':' :: bytesToHex (C.gcmEnc (C.pbkdf2 K salt) iv P).1))))), ?_, ?_⟩
  · simp only [encryptApiKey, hkey]
  unfold decryptApiKey
  have hsplit :
      splitChar ':' (bytesToHex salt ++ (':' :: (bytesToHex iv
          ++ (':' :: (bytesToHex (C.gcmEnc (C.pbkdf2 K salt) iv P).2
          ++ (':' :: bytesToHex (C.gcmEnc (C.pbkdf2 K salt) iv P).1)))))) =
        [bytesToHex salt, bytesToHex iv,
         bytesToHex (C.gcmEnc (C.pbkdf2 K salt) iv P).2,
         bytesToHex (C.gcmEnc (C.pbkdf2 K salt) iv P).1] := by
    rw [splitChar_append _ _ _ (colon_not_mem_bytesToHex salt hsalt),
        splitChar_append _ _ _ (colon_not_mem_bytesToHex iv hiv),
        splitChar_append _ _ _ (colon_not_mem_bytesToHex _ htag),
        splitChar_no_sep _ _ (colon_not_mem_bytesToHex _ hct)]
  rw [hsplit]
  simp only [hexToBytes_bytesToHex salt hsalt, hexToBytes_bytesToHex iv hiv,
    hexToBytes_bytesToHex _ htag, hexToBytes_bytesToHex _ hct, hkey, hgcm]

/-- A concrete instantiation of the crypto primitives used by witnesses: a
toy cipher that stores the char codes (reduced to bytes) and a fixed tag,
so that every definition evaluates by `decide`. -/
def toyCrypto : Crypto where
  pbkdf2 := fun _ _ => []
  gcmEnc := fun _ _ pt => (pt.map (fun c => c.toNat % 256), [7])
  gcmDec := fun _ _ tag ct =>
    if tag = [7] then .ok (ct.map (fun n => Char.ofNat n)) else .error []

/-- Witness for C2 at the concrete plaintext `ab`, key `k`, salt `[0]`,
IV `[1]`, under `toyCrypto`. -/
theorem decrypt_encrypt_roundtrip_witness :
    ∃ tok, encryptApiKey toyCrypto (some ("k").toList) [0] [1] ("ab").toList = .ok tok ∧
      decryptApiKey toyCrypto (some ("k").toList) tok = .ok ("ab").toList :=
  decrypt_encrypt_roundtrip toyCrypto ("k").toList [0] [1] ("ab").toList
    (by decide) (by decide) (by decide) (by decide) (by decide) (by rfl)

/-! ## Metrics Source Adapter (src/lib/revenuecat.ts) -/

/-- One element of the metrics array of the RevenueCat overview response. -/
structure RCMetric where
  id : List Char
  value : Int
deriving DecidableEq

/-- The return value of `fetchRevenueCatMetrics`. -/
structure ParsedMetrics where
  mrr : Int
  revenue : Int
deriving DecidableEq

/-- Outcome of the external HTTP exchange performed by
`fetchRevenueCatMetrics`, as seen after transport and JSON decoding: a 2xx
response with its parsed metrics array, a 2xx response whose body fails to
parse (`response.json()` throws), a non-2xx response carrying its status,
status text, the extracted error message (the source reads
`errorBody.message || errorBody.error || errorText`) and the raw body text,
or a rejection of `fetch` itself. -/
inductive HttpResponse where
  | okJson (metrics : List RCMetric)
  | okUnparseable (msg : List Char)
  | errResp (status : Nat) (statusText errorMessage errorText : List Char)
  | networkFailure (msg : List Char)
deriving DecidableEq

/-- A thrown JavaScript error as classified by the cron job: the source
dispatches on `error.name === \x27InvalidApiKeyError\x27`, every other
error is handled by its message alone. -/
inductive JsError where
  | invalidApiKey
  | generic (msg : List Char)
deriving DecidableEq

/-- Whether the first list is an initial segment of the second. -/
def headMatches : List Char → List Char → Bool
  | [], _ => true
  | _ :: _, [] => false
  | a :: as, b :: bs => a == b && headMatches as bs

/-- Model of the JavaScript `String.prototype.includes`. -/
def jsIncludes (hay needle : List Char) : Bool :=
  match hay with
  | [] => needle.isEmpty
  | _ :: tl => headMatches needle hay || jsIncludes tl needle

/-- Model of `parseFloat`-free JavaScript `x || 0` applied to an optional
metric value (`mrrMetric?.value || 0`). -/
def jsOrZero : Option Int → Int
  | none => 0
  | some v => if v = 0 then 0 else v

/-- Model of `fetchRevenueCatMetrics` in revenuecat.ts: require a truthy
project id, classify a 401 response whose extracted message matches the
invalid-api-key signature as `InvalidApiKeyError`, turn any other non-2xx
response into a generic `RevenueCat API error` message, and on success read
the metrics with ids `mrr` and `revenue`, defaulting each missing value
to zero. -/
def fetchRevenueCatMetrics (resp : HttpResponse) (projectId : List Char) :
    Except JsError ParsedMetrics :=
  if projectId = [] then .error (.generic ("Project ID is required").toList)
  else
    match resp with
    | .networkFailure msg => .error (.generic msg)
    | .okUnparseable msg => .error (.generic msg)
    | .errResp status statusText errorMessage errorText =>
      if status = 401 ∧ (errorMessage = ("Invalid API key.").toList ∨
          jsIncludes errorMessage ("Invalid API key").toList = true) then
        .error .invalidApiKey
      else
        .error (.generic (("RevenueCat API error: ").toList ++ (toString status).toList
          ++ (" ").toList ++ statusText ++ (". ").toList ++ errorText))
    | .okJson metrics =>
      let mrrMetric := metrics.find? (fun m => m.id = ("mrr").toList)
      let revenueMetric := metrics.find? (fun m => m.id = ("revenue").toList)
      .ok { mrr := jsOrZero (mrrMetric.map (fun m => m.value)),
            revenue := jsOrZero (revenueMetric.map (fun m => m.value)) }

/-- Model of `validateRevenueCatApiKey` in revenuecat.ts: true exactly when
the fetch succeeds. -/
def validateRevenueCatApiKey (resp : HttpResponse) (projectId : List Char) : Bool :=
  match fetchRevenueCatMetrics resp projectId with
  | .ok _ => true
  | .error _ => false

/-! ## Datastore (src/lib/db.ts) -/

/-- One row of the api_keys table as returned by `getStartupsWithApiKeys`:
startup id, the encrypted key token, and the nullable RevenueCat project
id. -/
structure StartupRow where
  startup_id : Nat
  encrypted_api_key : List Char
  project_id : Option (List Char)
deriving DecidableEq

/-- One row of the revenue_metrics table (the last_updated timestamp is not
modelled; no claim mentions its value). -/
structure MetricsRow where
  startup_id : Nat
  total_revenue : Int
  mrr : Int
deriving DecidableEq

/-- The datastore contents the core touches: the startups table (by id),
the api_keys table and the revenue_metrics table. -/
structure DbState where
  startups : List Nat
  api_keys : List StartupRow
  metrics : List MetricsRow
deriving DecidableEq

/-- Model of `getStartupsWithApiKeys` in db.ts: every api_keys row. -/
def getStartupsWithApiKeys (st : DbState) : List StartupRow := st.api_keys

/-- Upsert on the revenue_metrics list with conflict target startup_id:
update every row of that id if one exists, insert otherwise
(`upsertRevenueMetrics` in db.ts). -/
def upsertMetricsList (m : List MetricsRow) (id : Nat) (totalRevenue mrr : Int) :
    List MetricsRow :=
  if m.any (fun r => r.startup_id = id) then
    m.map (fun r => if r.startup_id = id then
      { startup_id := id, total_revenue := totalRevenue, mrr := mrr } else r)
  else
    m ++ [{ startup_id := id, total_revenue := totalRevenue, mrr := mrr }]

/-- Model of `upsertRevenueMetrics` in db.ts applied to the state. -/
def upsertRevenueMetrics (st : DbState) (id : Nat) (totalRevenue mrr : Int) : DbState :=
  { st with metrics := upsertMetricsList st.metrics id totalRevenue mrr }

/-- Model of `deleteStartup` in db.ts: delete the startup row; the schema
cascades to its api_keys and revenue_metrics rows. -/
def deleteStartup (st : DbState) (id : Nat) : DbState :=
  { startups := st.startups.filter (fun i => ¬ i = id),
    api_keys := st.api_keys.filter (fun r => ¬ r.startup_id = id),
    metrics := st.metrics.filter (fun r => ¬ r.startup_id = id) }

/-- Injected persistence failures for the cron job: when a field is `some
msg` the corresponding datastore write for that startup id throws msg (as
the supabase error message wrapped by db.ts) and leaves the state
unchanged. -/
structure DbOracle where
  upsertMetricsError : Nat → Option (List Char)
  deleteError : Nat → Option (List Char)

/-- First metrics row of a given startup id. -/
def findMetricsRow (m : List MetricsRow) (id : Nat) : Option MetricsRow :=
  m.find? (fun r => r.startup_id = id)

/-- First api_keys row of a given startup id. -/
def findApiKeyRow (st : DbState) (id : Nat) : Option StartupRow :=
  st.api_keys.find? (fun r => r.startup_id = id)

/-! ## Refresh Job (src/pages/api/cron/update-metrics.ts, authorized path) -/

/-- Externally observable side effects of one cron run, used to state that
the adapter is or is not called and that writes and deletes do or do not
happen for a given entry. -/
inductive Event where
  | fetchCall (startup_id : Nat)
  | metricsWrite (startup_id : Nat)
  | startupDelete (startup_id : Nat)
deriving DecidableEq

/-- Per-entry outcome inside the cron loop, mirroring which counter of the
results object gets incremented. -/
inductive Outcome where
  | success
  | deleted
  | failed (msg : List Char)
deriving DecidableEq

/-- The results object accumulated by the cron loop: counters plus the
per-entry error list (startup_id and message), in iteration order. -/
structure Report where
  success : Nat
  failed : Nat
  deleted : Nat
  errors : List (Nat × List Char)
deriving DecidableEq

/-- The two 200 responses of the authorized cron path: the early return for
an empty entry set (`No startups to update`, updated: 0, with none of the
counter fields) and the completed run carrying the results object. -/
inductive CronResponse where
  | noStartups
  | completed (rep : Report)
deriving DecidableEq

/-- The body of the per-startup try/catch in update-metrics.ts: skip a
falsy project id, decrypt, fetch, upsert; on an `InvalidApiKeyError` delete
the startup (a failing delete is itself recorded as failed); any other
error is recorded as failed.  Returns the new state, the outcome, and the
emitted events. -/
def processStartup (C : Crypto) (env : Option (List Char))
    (http : List Char → List Char → HttpResponse) (dbo : DbOracle)
    (st : DbState) (row : StartupRow) : DbState × Outcome × List Event :=
  match row.project_id with
  | none => (st, .failed ("Project ID is missing").toList, [])
  | some pid =>
    if pid = [] then (st, .failed ("Project ID is missing").toList, [])
    else
      match decryptApiKey C env row.encrypted_api_key with
      | .error e => (st, .failed e.message, [])
      | .ok apiKey =>
        match fetchRevenueCatMetrics (http apiKey pid) pid with
        | .ok metrics =>
          match dbo.upsertMetricsError row.startup_id with
          | some m =>
            (st, .failed (("Failed to upsert revenue metrics: ").toList ++ m),
             [.fetchCall row.startup_id])
          | none =>
            (upsertRevenueMetrics st row.startup_id metrics.revenue metrics.mrr, .success,
             [.fetchCall row.startup_id, .metricsWrite row.startup_id])
        | .error .invalidApiKey =>
          match dbo.deleteError row.startup_id with
          | some m =>
            (st, .failed (("Failed to delete startup: ").toList
                ++ ("Failed to delete startup: ").toList ++ m),
             [.fetchCall row.startup_id])
          | none =>
            (deleteStartup st row.startup_id, .deleted,
             [.fetchCall row.startup_id, .startupDelete row.startup_id])
        | .error (.generic msg) => (st, .failed msg, [.fetchCall row.startup_id])

/-- Fold one outcome into the results object. -/
def applyOutcome (rep : Report) (id : Nat) : Outcome → Report
  | .success => { rep with success := rep.success + 1 }
  | .deleted => { rep with deleted := rep.deleted + 1 }
  | .failed msg => { rep with failed := rep.failed + 1, errors := rep.errors ++ [(id, msg)] }

/-- The `for ... of startupsWithKeys` loop of update-metrics.ts. -/
def runCronLoop (C : Crypto) (env : Option (List Char))
    (http : List Char → List Char → HttpResponse) (dbo : DbOracle) :
    DbState → Report → List StartupRow → DbState × Report × List Event
  | st, rep, [] => (st, rep, [])
  | st, rep, row :: rows =>
    let s1 := processStartup C env http dbo st row
    let s2 := runCronLoop C env http dbo s1.1 (applyOutcome rep row.startup_id s1.2.1) rows
    (s2.1, s2.2.1, s1.2.2 ++ s2.2.2)

/-- The authorized path of the cron GET handler: list the api_keys rows,
return the early `No startups to update` response when there are none, and
otherwise run the loop from an all-zero results object. -/
def runCron (C : Crypto) (env : Option (List Char))
    (http : List Char → List Char → HttpResponse) (dbo : DbOracle)
    (st : DbState) : DbState × CronResponse × List Event :=
  let rows := getStartupsWithApiKeys st
  if rows.length = 0 then (st, .noStartups, [])
  else
    let s := runCronLoop C env http dbo st ⟨0, 0, 0, []⟩ rows
    (s.1, .completed s.2.1, s.2.2)

/-! ## Per-entry reduction lemmas for the cron loop -/

theorem processStartup_success_eq (C : Crypto) (env : Option (List Char))
    (http : List Char → List Char → HttpResponse) (dbo : DbOracle)
    (st : DbState) (row : StartupRow) (pid key : List Char) (m : ParsedMetrics)
    (hp : row.project_id = some pid) (hpne : ¬ pid = [])
    (hd : decryptApiKey C env row.encrypted_api_key = .ok key)
    (hf : fetchRevenueCatMetrics (http key pid) pid = .ok m)
    (hu : dbo.upsertMetricsError row.startup_id = none) :
    processStartup C env http dbo st row =
      (upsertRevenueMetrics st row.startup_id m.revenue m.mrr, .success,
       [.fetchCall row.startup_id, .metricsWrite row.startup_id]) := by
  unfold processStartup
  simp only [hp, if_neg hpne, hd, hf, hu]

theorem processStartup_invalid_deleted_eq (C : Crypto) (env : Option (List Char))
    (http : List Char → List Char → HttpResponse) (dbo : DbOracle)
    (st : DbState) (row : StartupRow) (pid key : List Char)
    (hp : row.project_id = some pid) (hpne : ¬ pid = [])
    (hd : decryptApiKey C env row.encrypted_api_key = .ok key)
    (hf : fetchRevenueCatMetrics (http key pid) pid = .error .invalidApiKey)
    (hdel : dbo.deleteError row.startup_id = none) :
    processStartup C env http dbo st row =
      (deleteStartup st row.startup_id, .deleted,
       [.fetchCall row.startup_id, .startupDelete row.startup_id]) := by
  unfold processStartup
  simp only [hp, if_neg hpne, hd, hf, hdel]

theorem processStartup_generic_failed_eq (C : Crypto) (env : Option (List Char))
    (http : List Char → List Char → HttpResponse) (dbo : DbOracle)
    (st : DbState) (row : StartupRow) (pid key msg : List Char)
    (hp : row.project_id = some pid) (hpne : ¬ pid = [])
    (hd : decryptApiKey C env row.encrypted_api_key = .ok key)
    (hf : fetchRevenueCatMetrics (http key pid) pid = .error (.generic msg)) :
    processStartup C env http dbo st row =
      (st, .failed msg, [.fetchCall row.startup_id]) := by
  unfold processStartup
  simp only [hp, if_neg hpne, hd, hf]

theorem processStartup_decrypt_failed_eq (C : Crypto) (env : Option (List Char))
    (http : List Char → List Char → HttpResponse) (dbo : DbOracle)
    (st : DbState) (row : StartupRow) (pid : List Char) (e : DecryptErr)
    (hp : row.project_id = some pid) (hpne : ¬ pid = [])
    (hd : decryptApiKey C env row.encrypted_api_key = .error e) :
    processStartup C env http dbo st row = (st, .failed e.message, []) := by
  unfold processStartup
  simp only [hp, if_neg hpne, hd]

/-! ## Claim C7 -/

/-- Claim C7: an entry of the Refresh Job input whose project id is absent
is recorded as failed with the descriptive message `Project ID is missing`
and skipped: the adapter is never called for it (no events at all) and the
stored records are untouched (the state is returned unchanged). -/
theorem cron_missing_project_id_failed (C : Crypto) (env : Option (List Char))
    (http : List Char → List Char → HttpResponse) (dbo : DbOracle)
    (st : DbState) (row : StartupRow) (h : row.project_id = none) :
    processStartup C env http dbo st row =
      (st, .failed ("Project ID is missing").toList, []) := by
  unfold processStartup
  simp only [h]

/-- Witness for C7 at a concrete row with no project id. -/
theorem cron_missing_project_id_failed_witness :
    processStartup toyCrypto (some ("k").toList) (fun _ _ => .networkFailure [])
      ⟨fun _ => none, fun _ => none⟩ ⟨[4], [⟨4, ("t").toList, none⟩], []⟩
      ⟨4, ("t").toList, none⟩ =
      (⟨[4], [⟨4, ("t").toList, none⟩], []⟩, .failed ("Project ID is missing").toList, []) :=
  cron_missing_project_id_failed toyCrypto (some ("k").toList)
    (fun _ _ => .networkFailure []) ⟨fun _ => none, fun _ => none⟩
    ⟨[4], [⟨4, ("t").toList, none⟩], []⟩ ⟨4, ("t").toList, none⟩ rfl

/-! ## Claim C3 -/

/-- Claim C3: during a Refresh Job run an entry is deleted only when its
adapter fetch fails with the invalid-credential error: whenever the
per-entry processing deletes the entry, its credential decrypted
successfully and the adapter classified the response as
`InvalidApiKeyError`; and whenever the per-entry processing fails in any
other way (decryption failure, transient or HTTP error, malformed
response, missing project id, failed write or failed delete) the outcome is
`failed` and the datastore state is returned unchanged — the entry and its
records are never deleted. -/
theorem cron_delete_only_on_invalid_credential (C : Crypto) (env : Option (List Char))
    (http : List Char → List Char → HttpResponse) (dbo : DbOracle)
    (st : DbState) (row : StartupRow) :
    ((processStartup C env http dbo st row).2.1 = .deleted →
      ∃ pid key, row.project_id = some pid ∧
        decryptApiKey C env row.encrypted_api_key = .ok key ∧
        fetchRevenueCatMetrics (http key pid) pid = .error .invalidApiKey) ∧
    (∀ msg, (processStartup C env http dbo st row).2.1 = .failed msg →
      (processStartup C env http dbo st row).1 = st) := by
  unfold processStartup
  rcases hp : row.project_id with _ | pid
  · simp [hp]
  · by_cases hpne : pid = []
    · simp [hp, hpne]
    · simp only [hp, if_neg hpne]
      rcases hd : decryptApiKey C env row.encrypted_api_key with e | key
      · simp [hd]
      · simp only [hd]
        rcases hf : fetchRevenueCatMetrics (http key pid) pid with e | m
        · rcases e with _ | msg
          · rcases hdel : dbo.deleteError row.startup_id with _ | m
            · simp only [hf, hdel]
              exact ⟨fun _ => ⟨pid, key, rfl, rfl, hf⟩, fun msg hmsg => by cases hmsg⟩
            · simp [hf, hdel]
          · simp [hf]
        · rcases hu : dbo.upsertMetricsError row.startup_id with _ | m
          · simp [hf, hu]
          · simp [hf, hu]

/-- HTTP oracle answering every request with an authoritative 401
invalid-api-key response, for concrete witnesses. -/
def httpInvalidKey : List Char → List Char → HttpResponse :=
  fun _ _ => .errResp 401 ("Unauthorized").toList ("Invalid API key.").toList
    ("Invalid API key.").toList

/-- HTTP oracle answering every request with a network failure, for
concrete witnesses. -/
def httpBoom : List Char → List Char → HttpResponse :=
  fun _ _ => .networkFailure ("boom").toList

/-- Datastore oracle with no injected persistence failures. -/
def dbNoFail : DbOracle := ⟨fun _ => none, fun _ => none⟩

/-- A concrete api_keys row whose token decrypts to `ab` under `toyCrypto`
and the master secret `k`. -/
def rowSix : StartupRow := ⟨6, ("aa:bb:07:6162").toList, some ("p").toList⟩

/-- A concrete datastore state holding only startup 6. -/
def stSix : DbState := ⟨[6], [rowSix], []⟩

/-- Witness for C3, applying the theorem at two concrete inputs: one where
the entry is deleted after an authoritative 401 invalid-api-key response
(the first conjunct), and one where the fetch fails with a network error
and the state is unchanged (the second conjunct). -/
theorem cron_delete_only_on_invalid_credential_witness :
    (∃ pid key, rowSix.project_id = some pid ∧
      decryptApiKey toyCrypto (some ("k").toList) rowSix.encrypted_api_key = .ok key ∧
      fetchRevenueCatMetrics (httpInvalidKey key pid) pid = .error .invalidApiKey) ∧
    (processStartup toyCrypto (some ("k").toList) httpBoom dbNoFail stSix rowSix).1 = stSix :=
  ⟨(cron_delete_only_on_invalid_credential toyCrypto (some ("k").toList) httpInvalidKey
      dbNoFail stSix rowSix).1 (by rfl),
   (cron_delete_only_on_invalid_credential toyCrypto (some ("k").toList) httpBoom
      dbNoFail stSix rowSix).2 ("boom").toList (by rfl)⟩

/-! ## Claim C9 -/

/-- Claim C9: a successful, parseable external metrics response whose
metrics array contains no element with id `mrr` and none with id `revenue`
makes the adapter return `mrr = 0, revenue = 0` rather than fail, and the
Refresh Job treats this as a plain success: it writes the zero reading to
the metrics record and counts the entry as succeeded. -/
theorem adapter_no_matching_metrics_zero (C : Crypto) (env : Option (List Char))
    (http : List Char → List Char → HttpResponse) (dbo : DbOracle)
    (st : DbState) (row : StartupRow) (ms : List RCMetric) (pid key : List Char)
    (hm : ∀ m ∈ ms, ¬ m.id = ("mrr").toList ∧ ¬ m.id = ("revenue").toList)
    (hp : row.project_id = some pid) (hpne : ¬ pid = [])
    (hd : decryptApiKey C env row.encrypted_api_key = .ok key)
    (hhttp : http key pid = .okJson ms)
    (hu : dbo.upsertMetricsError row.startup_id = none) :
    fetchRevenueCatMetrics (.okJson ms) pid = .ok ⟨0, 0⟩ ∧
    processStartup C env http dbo st row =
      (upsertRevenueMetrics st row.startup_id 0 0, .success,
       [.fetchCall row.startup_id, .metricsWrite row.startup_id]) := by
  have hmrr : ms.find? (fun m => m.id = ("mrr").toList) = none := by
    rw [List.find?_eq_none]
    intro m hmem
    simpa using (hm m hmem).1
  have hrev : ms.find? (fun m => m.id = ("revenue").toList) = none := by
    rw [List.find?_eq_none]
    intro m hmem
    simpa using (hm m hmem).2
  have hfetch : fetchRevenueCatMetrics (.okJson ms) pid = .ok ⟨0, 0⟩ := by
    unfold fetchRevenueCatMetrics
    simp only [if_neg hpne, hmrr, hrev]
    rfl
  refine ⟨hfetch, ?_⟩
  have := processStartup_success_eq C env http dbo st row pid key ⟨0, 0⟩ hp hpne hd
    (by rw [hhttp]; exact hfetch) hu
  simpa using this

/-- Witness for C9 at a response whose only metric has id `other`. -/
theorem adapter_no_matching_metrics_zero_witness :
    fetchRevenueCatMetrics (.okJson [⟨("other").toList, 5⟩]) ("p").toList = .ok ⟨0, 0⟩ ∧
    processStartup toyCrypto (some ("k").toList)
      (fun _ _ => .okJson [⟨("other").toList, 5⟩]) dbNoFail stSix rowSix =
      (upsertRevenueMetrics stSix rowSix.startup_id 0 0, .success,
       [.fetchCall rowSix.startup_id, .metricsWrite rowSix.startup_id]) :=
  adapter_no_matching_metrics_zero toyCrypto (some ("k").toList)
    (fun _ _ => .okJson [⟨("other").toList, 5⟩]) dbNoFail stSix rowSix
    [⟨("other").toList, 5⟩] ("p").toList ("ab").toList
    (by decide) (by rfl) (by decide) (by rfl) (by rfl) (by rfl)

/-! ## Claim C10 -/

theorem runCronLoop_invariant (C : Crypto) (env : Option (List Char))
    (http : List Char → List Char → HttpResponse) (dbo : DbOracle)
    (rows : List StartupRow) :
    ∀ st rep,
      ((runCronLoop C env http dbo st rep rows).2.1.success
        + (runCronLoop C env http dbo st rep rows).2.1.failed
        + (runCronLoop C env http dbo st rep rows).2.1.deleted
        = rep.success + rep.failed + rep.deleted + rows.length)
      ∧ ((runCronLoop C env http dbo st rep rows).2.1.errors.length + rep.failed
        = rep.errors.length + (runCronLoop C env http dbo st rep rows).2.1.failed) := by
  induction rows with
  | nil => intro st rep; simp [runCronLoop]
  | cons row rows ih =>
    intro st rep
    have step := ih (processStartup C env http dbo st row).1
      (applyOutcome rep row.startup_id (processStartup C env http dbo st row).2.1)
    cases hout : (processStartup C env http dbo st row).2.1 <;>
      rw [hout] at step <;>
      simp only [runCronLoop, hout, applyOutcome, List.length_cons,
        List.length_append, List.length_nil] at step ⊢ <;>
      omega

/-- Claim C10: whenever a cron run over a non-empty entry list completes
with a results object, each entry contributed to exactly one counter —
success + failed + deleted equals the number of listed entries — and the
error list holds exactly one element per failed entry (its length equals
the failed counter); no per-entry exception escapes the loop, which is
total by construction. -/
theorem cron_report_counts (C : Crypto) (env : Option (List Char))
    (http : List Char → List Char → HttpResponse) (dbo : DbOracle)
    (st stf : DbState) (rep : Report) (evs : List Event)
    (h : runCron C env http dbo st = (stf, .completed rep, evs)) :
    rep.success + rep.failed + rep.deleted = (getStartupsWithApiKeys st).length ∧
    rep.errors.length = rep.failed := by
  unfold runCron at h
  by_cases hlen : (getStartupsWithApiKeys st).length = 0
  · rw [if_pos hlen] at h
    have h2 := congrArg (fun x => x.2.1) h
    simp at h2
  · rw [if_neg hlen] at h
    have inv := runCronLoop_invariant C env http dbo (getStartupsWithApiKeys st) st ⟨0, 0, 0, []⟩
    have hrep : (runCronLoop C env http dbo st ⟨0, 0, 0, []⟩ (getStartupsWithApiKeys st)).2.1
        = rep := by
      have := congrArg (fun x => x.2.1) h
      simpa using this
    rw [hrep] at inv
    simp only at inv
    obtain ⟨h1, h2⟩ := inv
    constructor
    · omega
    · simpa using h2

/-- A concrete three-entry datastore: entry 1 will succeed, entry 2 will be
deleted on an invalid credential, entry 3 will fail transiently. -/
def stThree : DbState := ⟨[1, 2, 3],
  [⟨1, ("aa:bb:07:6162").toList, some ("pa").toList⟩,
   ⟨2, ("aa:bb:07:6162").toList, some ("pb").toList⟩,
   ⟨3, ("aa:bb:07:6162").toList, some ("pc").toList⟩], []⟩

/-- HTTP oracle for `stThree`: metrics for project pa, an authoritative 401
for pb, a network failure otherwise. -/
def httpThree : List Char → List Char → HttpResponse := fun _ pid =>
  if pid = ("pa").toList then .okJson [⟨("mrr").toList, 3⟩, ⟨("revenue").toList, 9⟩]
  else if pid = ("pb").toList then
    .errResp 401 ("Unauthorized").toList ("Invalid API key.").toList ("x").toList
  else .networkFailure ("boom").toList

/-- The run over `stThree`. -/
def resThree : DbState × CronResponse × List Event :=
  runCron toyCrypto (some ("k").toList) httpThree dbNoFail stThree

/-- Witness for C10 at a concrete three-entry run with one success, one
deletion and one failure. -/
theorem cron_report_counts_witness :
    (⟨1, 1, 1, [(3, ("boom").toList)]⟩ : Report).success
        + (⟨1, 1, 1, [(3, ("boom").toList)]⟩ : Report).failed
        + (⟨1, 1, 1, [(3, ("boom").toList)]⟩ : Report).deleted
        = (getStartupsWithApiKeys stThree).length ∧
    (⟨1, 1, 1, [(3, ("boom").toList)]⟩ : Report).errors.length
        = (⟨1, 1, 1, [(3, ("boom").toList)]⟩ : Report).failed :=
  cron_report_counts toyCrypto (some ("k").toList) httpThree dbNoFail stThree
    resThree.1 ⟨1, 1, 1, [(3, ("boom").toList)]⟩ resThree.2.2 (by rfl)

/-! ## Claim C4 -/

/-- C4 counterexample: the claim states that a run over an empty entry set
returns the report with succeeded, failed and removed all zero and an empty
error list; the source instead returns the early `No startups to update`
response, which carries an `updated: 0` field and none of the counters, so
at the concrete empty datastore the response is not the all-zero results
object. -/
theorem cron_empty_counterexample :
    (runCron toyCrypto (some ("k").toList) httpBoom dbNoFail ⟨[], [], []⟩).2.1 ≠
      .completed ⟨0, 0, 0, []⟩ := by
  decide

/-- Claim C4 as amended: a Refresh Job run whose entry listing is empty
returns the early `No startups to update` response (with `updated: 0` and
no counter fields), leaves the datastore unchanged, and performs no adapter
calls, writes or deletions (no events). -/
theorem cron_empty_noStartups (C : Crypto) (env : Option (List Char))
    (http : List Char → List Char → HttpResponse) (dbo : DbOracle) (st : DbState)
    (h : getStartupsWithApiKeys st = []) :
    runCron C env http dbo st = (st, .noStartups, []) := by
  unfold runCron
  simp [h]

/-- Witness for the amended C4 at the concrete empty datastore. -/
theorem cron_empty_noStartups_witness :
    runCron toyCrypto (some ("k").toList) httpBoom dbNoFail ⟨[], [], []⟩ =
      (⟨[], [], []⟩, .noStartups, []) :=
  cron_empty_noStartups toyCrypto (some ("k").toList) httpBoom dbNoFail ⟨[], [], []⟩ rfl

/-! ## Claim C5 -/

theorem decryptApiKey_none_error (C : Crypto) (tok : List Char) :
    ∃ e, decryptApiKey C none tok = .error e := by
  unfold decryptApiKey
  rcases hs : splitChar ':' tok with _ | ⟨a, _ | ⟨b, _ | ⟨c, _ | ⟨d, _ | ⟨e, t⟩⟩⟩⟩⟩ <;>
    simp [getEncryptionKey]

theorem processStartup_none_failed (C : Crypto)
    (http : List Char → List Char → HttpResponse) (dbo : DbOracle)
    (st : DbState) (row : StartupRow) :
    ∃ msg, processStartup C none http dbo st row = (st, .failed msg, []) := by
  unfold processStartup
  rcases hp : row.project_id with _ | pid
  · exact ⟨_, rfl⟩
  · by_cases hpne : pid = []
    · simp only [if_pos hpne]
      exact ⟨_, rfl⟩
    · simp only [if_neg hpne]
      obtain ⟨e, he⟩ := decryptApiKey_none_error C row.encrypted_api_key
      simp only [he]
      exact ⟨_, rfl⟩

theorem runCronLoop_none (C : Crypto)
    (http : List Char → List Char → HttpResponse) (dbo : DbOracle)
    (rows : List StartupRow) :
    ∀ st rep, ∃ es, es.length = rows.length ∧
      runCronLoop C none http dbo st rep rows =
        (st, ⟨rep.success, rep.failed + rows.length, rep.deleted, rep.errors ++ es⟩, []) := by
  induction rows with
  | nil =>
    intro st rep
    exact ⟨[], rfl, by simp [runCronLoop]⟩
  | cons row rows ih =>
    intro st rep
    obtain ⟨msg, hmsg⟩ := processStartup_none_failed C http dbo st row
    obtain ⟨es, hlen, hes⟩ := ih st (applyOutcome rep row.startup_id (.failed msg))
    refine ⟨(row.startup_id, msg) :: es, by simp [hlen], ?_⟩
    simp only [runCronLoop, hmsg]
    rw [hes]
    simp only [applyOutcome, Prod.mk.injEq, Report.mk.injEq, List.append_assoc,
      List.singleton_append, List.cons_append, List.nil_append, List.length_cons,
      true_and, and_true]
    omega

/-- C5 counterexample: the claim states that with the master secret absent
a Refresh Job run with entries present refuses to start and does not
proceed to process entries; read on the model, a completed run would then
have to carry no per-entry outcomes at all (all counters zero).  At this
concrete one-entry datastore with ENCRYPTION_KEY absent the run completes
normally and the entry is processed and recorded as failed, so the claim
as stated is false: the configuration error surfaces per entry inside the
loop, not as a boundary refusal. -/
theorem cron_missing_master_secret_counterexample :
    ¬ (∀ rep, (runCron toyCrypto none httpBoom dbNoFail stSix).2.1 = .completed rep →
        rep.success + rep.failed + rep.deleted = 0) := by
  intro h
  have h6 := h ⟨0, 1, 0, [(6,
    ("Failed to decrypt API key: ENCRYPTION_KEY is not set in environment variables").toList)]⟩
    (by rfl)
  simp at h6

/-- Claim C5 as amended: when the master secret is absent, each operation
that needs it fails with the `ENCRYPTION_KEY is not set` configuration
error at its point of use — `encryptApiKey` returns that error for every
input, and a Refresh Job run still proceeds through its loop, recording
every listed entry as failed (with an error entry each) while performing no
adapter call, no write and no deletion, leaving the datastore unchanged. -/
theorem cron_missing_master_secret (C : Crypto)
    (http : List Char → List Char → HttpResponse) (dbo : DbOracle)
    (st stf : DbState) (resp : CronResponse) (evs : List Event)
    (h : runCron C none http dbo st = (stf, resp, evs)) :
    (∀ salt iv P, encryptApiKey C none salt iv P =
      .error (("Failed to encrypt API key: ENCRYPTION_KEY is not set in environment variables").toList)) ∧
    stf = st ∧ evs = [] ∧
    (∀ rep, resp = .completed rep →
      rep.success = 0 ∧ rep.deleted = 0 ∧
      rep.failed = (getStartupsWithApiKeys st).length ∧
      rep.errors.length = (getStartupsWithApiKeys st).length) := by
  refine ⟨fun salt iv P => by rfl, ?_⟩
  unfold runCron at h
  by_cases hlen : (getStartupsWithApiKeys st).length = 0
  · rw [if_pos hlen] at h
    have h1 := congrArg (fun x => x.1) h
    have h2 := congrArg (fun x => x.2.1) h
    have h3 := congrArg (fun x => x.2.2) h
    simp only at h1 h2 h3
    refine ⟨h1.symm, h3.symm, ?_⟩
    intro rep hrep
    rw [hrep] at h2
    cases h2
  · rw [if_neg hlen] at h
    obtain ⟨es, helen, hes⟩ :=
      runCronLoop_none C http dbo (getStartupsWithApiKeys st) st ⟨0, 0, 0, []⟩
    rw [hes] at h
    have h1 := congrArg (fun x => x.1) h
    have h2 := congrArg (fun x => x.2.1) h
    have h3 := congrArg (fun x => x.2.2) h
    simp only at h1 h2 h3
    refine ⟨h1.symm, h3.symm, ?_⟩
    intro rep hrep
    rw [hrep] at h2
    have hrepeq : (⟨0, 0 + (getStartupsWithApiKeys st).length, 0,
        [] ++ es⟩ : Report) = rep := by
      cases h2
      rfl
    rw [← hrepeq]
    simp [helen]

/-- Witness for the amended C5 at the concrete one-entry datastore with
ENCRYPTION_KEY absent. -/
theorem cron_missing_master_secret_witness :
    ((∀ salt iv P, encryptApiKey toyCrypto none salt iv P =
      .error (("Failed to encrypt API key: ENCRYPTION_KEY is not set in environment variables").toList)) ∧
    (runCron toyCrypto none httpBoom dbNoFail stSix).1 = stSix ∧
    (runCron toyCrypto none httpBoom dbNoFail stSix).2.2 = [] ∧
    (∀ rep, (runCron toyCrypto none httpBoom dbNoFail stSix).2.1 = .completed rep →
      rep.success = 0 ∧ rep.deleted = 0 ∧
      rep.failed = (getStartupsWithApiKeys stSix).length ∧
      rep.errors.length = (getStartupsWithApiKeys stSix).length)) :=
  cron_missing_master_secret toyCrypto httpBoom dbNoFail stSix
    (runCron toyCrypto none httpBoom dbNoFail stSix).1
    (runCron toyCrypto none httpBoom dbNoFail stSix).2.1
    (runCron toyCrypto none httpBoom dbNoFail stSix).2.2 (by rfl)

/-! ## Lookup lemmas for the datastore operations -/

theorem find?_filter_ne {α : Type} (f : α → Nat) (l : List α) (b i : Nat) (h : ¬ i = b) :
    (l.filter (fun r => ¬ f r = b)).find? (fun r => f r = i) =
      l.find? (fun r => f r = i) := by
  induction l with
  | nil => rfl
  | cons r tl ih =>
    by_cases hr : f r = b
    · have hri : ¬ f r = i := fun hh => h (by rw [← hh, hr])
      rw [List.filter_cons_of_neg (by simpa using hr),
          List.find?_cons_of_neg _ (by simpa using hri), ih]
    · by_cases hri : f r = i
      · rw [List.filter_cons_of_pos (by simpa using hr),
            List.find?_cons_of_pos _ (by simpa using hri),
            List.find?_cons_of_pos _ (by simpa using hri)]
      · rw [List.filter_cons_of_pos (by simpa using hr),
            List.find?_cons_of_neg _ (by simpa using hri),
            List.find?_cons_of_neg _ (by simpa using hri), ih]

theorem find?_filter_self {α : Type} (f : α → Nat) (l : List α) (b : Nat) :
    (l.filter (fun r => ¬ f r = b)).find? (fun r => f r = b) = none := by
  induction l with
  | nil => rfl
  | cons r tl ih =>
    by_cases hr : f r = b
    · rw [List.filter_cons_of_neg (by simpa using hr), ih]
    · rw [List.filter_cons_of_pos (by simpa using hr),
          List.find?_cons_of_neg _ (by simpa using hr), ih]

theorem find?_map_update (m : List MetricsRow) (id : Nat) (rev mrr : Int)
    (hany : m.any (fun r => r.startup_id = id) = true) :
    (m.map (fun r => if r.startup_id = id then
        ({ startup_id := id, total_revenue := rev, mrr := mrr } : MetricsRow) else r)).find?
      (fun r => r.startup_id = id) =
      some { startup_id := id, total_revenue := rev, mrr := mrr } := by
  induction m with
  | nil => cases hany
  | cons r tl ih =>
    by_cases hr : r.startup_id = id
    · rw [List.map_cons, if_pos hr, List.find?_cons_of_pos _ (by simp)]
    · have htl : tl.any (fun r => r.startup_id = id) = true := by
        simpa [List.any_cons, hr] using hany
      rw [List.map_cons, if_neg hr, List.find?_cons_of_neg _ (by simpa using hr), ih htl]

theorem find?_map_update_other (m : List MetricsRow) (id i : Nat) (rev mrr : Int)
    (h : ¬ i = id) :
    (m.map (fun r => if r.startup_id = id then
        ({ startup_id := id, total_revenue := rev, mrr := mrr } : MetricsRow) else r)).find?
      (fun r => r.startup_id = i) = m.find? (fun r => r.startup_id = i) := by
  induction m with
  | nil => rfl
  | cons r tl ih =>
    by_cases hr : r.startup_id = id
    · have hri : ¬ r.startup_id = i := fun hh => h (by rw [← hh, hr])
      have hni : ¬ (({ startup_id := id, total_revenue := rev, mrr := mrr } :
          MetricsRow).startup_id = i) := fun hh => h hh.symm
      rw [List.map_cons, if_pos hr, List.find?_cons_of_neg _ (by simpa using hni),
          List.find?_cons_of_neg _ (by simpa using hri), ih]
    · by_cases hri : r.startup_id = i
      · rw [List.map_cons, if_neg hr, List.find?_cons_of_pos _ (by simpa using hri),
            List.find?_cons_of_pos _ (by simpa using hri)]
      · rw [List.map_cons, if_neg hr, List.find?_cons_of_neg _ (by simpa using hri),
            List.find?_cons_of_neg _ (by simpa using hri), ih]

theorem find?_append_single {α : Type} (l : List α) (x : α) (p : α → Bool)
    (h : l.find? p = none) : (l ++ [x]).find? p = List.find? p [x] := by
  induction l with
  | nil => simp
  | cons r tl ih =>
    by_cases hr : p r = true
    · rw [List.find?_cons_of_pos _ hr] at h
      cases h
    · have hr2 : ¬ p r := by simpa using hr
      rw [List.find?_cons_of_neg _ hr2] at h
      rw [List.cons_append, List.find?_cons_of_neg _ hr2]
      exact ih h

theorem find?_append_single_none {α : Type} (l : List α) (x : α) (p : α → Bool)
    (hx : ¬ p x = true) : (l ++ [x]).find? p = l.find? p := by
  induction l with
  | nil =>
    have hfalse : p x = false := by simpa using hx
    simp [List.find?, hfalse]
  | cons r tl ih =>
    by_cases hr : p r = true
    · rw [List.cons_append, List.find?_cons_of_pos _ hr, List.find?_cons_of_pos _ hr]
    · rw [List.cons_append, List.find?_cons_of_neg _ (by simpa using hr),
          List.find?_cons_of_neg _ (by simpa using hr), ih]

theorem findMetricsRow_filter_ne (m : List MetricsRow) (b i : Nat) (h : ¬ i = b) :
    (m.filter (fun r => ¬ r.startup_id = b)).find? (fun r => r.startup_id = i) =
      m.find? (fun r => r.startup_id = i) :=
  find?_filter_ne (fun r : MetricsRow => r.startup_id) m b i h

theorem findMetricsRow_filter_self (m : List MetricsRow) (b : Nat) :
    (m.filter (fun r => ¬ r.startup_id = b)).find? (fun r => r.startup_id = b) = none :=
  find?_filter_self (fun r : MetricsRow => r.startup_id) m b

theorem findApiKey_filter_ne (l : List StartupRow) (b i : Nat) (h : ¬ i = b) :
    (l.filter (fun r => ¬ r.startup_id = b)).find? (fun r => r.startup_id = i) =
      l.find? (fun r => r.startup_id = i) :=
  find?_filter_ne (fun r : StartupRow => r.startup_id) l b i h

theorem findApiKey_filter_self (l : List StartupRow) (b : Nat) :
    (l.filter (fun r => ¬ r.startup_id = b)).find? (fun r => r.startup_id = b) = none :=
  find?_filter_self (fun r : StartupRow => r.startup_id) l b

theorem findMetricsRow_upsert_self (m : List MetricsRow) (id : Nat) (rev mrr : Int) :
    findMetricsRow (upsertMetricsList m id rev mrr) id =
      some { startup_id := id, total_revenue := rev, mrr := mrr } := by
  unfold upsertMetricsList findMetricsRow
  by_cases hany : m.any (fun r => r.startup_id = id) = true
  · rw [if_pos hany]
    exact find?_map_update m id rev mrr hany
  · rw [if_neg hany]
    have hnone : m.find? (fun r => r.startup_id = id) = none := by
      rw [List.find?_eq_none]
      intro x hx hpx
      exact hany (List.any_eq_true.2 ⟨x, hx, hpx⟩)
    rw [find?_append_single m _ _ hnone]
    simp

theorem findMetricsRow_upsert_other (m : List MetricsRow) (id i : Nat) (rev mrr : Int)
    (h : ¬ i = id) :
    findMetricsRow (upsertMetricsList m id rev mrr) i = findMetricsRow m i := by
  unfold upsertMetricsList findMetricsRow
  by_cases hany : m.any (fun r => r.startup_id = id) = true
  · rw [if_pos hany]
    exact find?_map_update_other m id i rev mrr h
  · rw [if_neg hany]
    exact find?_append_single_none m _ _ (by simpa using fun hh => h hh.symm)

/-! ## Claim C1 -/

/-- Claim C1: for any run of the Refresh Job over three listed entries A, B
and C — where the adapter fetch succeeds for A with metrics mA, fails for B
with the invalid-credential error, and fails for C with any other error —
the run completes with the results object `success 1, failed 1, deleted 1`
and exactly the error entry (C, message); the A metrics record holds the
fetched values; the B startup together with its api_keys and metrics rows
no longer exists; and the C rows (startup membership, api_keys row, metrics
row) are exactly as before the run. -/
theorem cron_mixed_run (C : Crypto) (env : Option (List Char))
    (http : List Char → List Char → HttpResponse) (dbo : DbOracle)
    (a b c : Nat) (tokA tokB tokC pidA pidB pidC keyA keyB keyC msgC : List Char)
    (mA : ParsedMetrics) (st : DbState)
    (hkeys : st.api_keys =
      [⟨a, tokA, some pidA⟩, ⟨b, tokB, some pidB⟩, ⟨c, tokC, some pidC⟩])
    (hab : ¬ a = b) (hac : ¬ a = c) (hbc : ¬ b = c)
    (hpA : ¬ pidA = []) (hpB : ¬ pidB = []) (hpC : ¬ pidC = [])
    (hdA : decryptApiKey C env tokA = .ok keyA)
    (hdB : decryptApiKey C env tokB = .ok keyB)
    (hdC : decryptApiKey C env tokC = .ok keyC)
    (hfA : fetchRevenueCatMetrics (http keyA pidA) pidA = .ok mA)
    (hfB : fetchRevenueCatMetrics (http keyB pidB) pidB = .error .invalidApiKey)
    (hfC : fetchRevenueCatMetrics (http keyC pidC) pidC = .error (.generic msgC))
    (huA : dbo.upsertMetricsError a = none)
    (hdelB : dbo.deleteError b = none) :
    ∃ stf evs,
      runCron C env http dbo st = (stf, .completed ⟨1, 1, 1, [(c, msgC)]⟩, evs) ∧
      findMetricsRow stf.metrics a =
        some { startup_id := a, total_revenue := mA.revenue, mrr := mA.mrr } ∧
      b ∉ stf.startups ∧
      stf.api_keys.find? (fun r => r.startup_id = b) = none ∧
      findMetricsRow stf.metrics b = none ∧
      (c ∈ st.startups → c ∈ stf.startups) ∧
      stf.api_keys.find? (fun r => r.startup_id = c) = some ⟨c, tokC, some pidC⟩ ∧
      findMetricsRow stf.metrics c = findMetricsRow st.metrics c := by
  have h1 := processStartup_success_eq C env http dbo st
    ⟨a, tokA, some pidA⟩ pidA keyA mA rfl hpA hdA hfA huA
  have h2 := processStartup_invalid_deleted_eq C env http dbo
    (upsertRevenueMetrics st a mA.revenue mA.mrr)
    ⟨b, tokB, some pidB⟩ pidB keyB rfl hpB hdB hfB hdelB
  have h3 := processStartup_generic_failed_eq C env http dbo
    (deleteStartup (upsertRevenueMetrics st a mA.revenue mA.mrr) b)
    ⟨c, tokC, some pidC⟩ pidC keyC msgC rfl hpC hdC hfC
  simp only at h1 h2 h3
  have hrun : runCron C env http dbo st =
      (deleteStartup (upsertRevenueMetrics st a mA.revenue mA.mrr) b,
       .completed ⟨1, 1, 1, [(c, msgC)]⟩,
       [.fetchCall a, .metricsWrite a, .fetchCall b, .startupDelete b, .fetchCall c]) := by
    unfold runCron getStartupsWithApiKeys
    rw [hkeys]
    rw [if_neg (by simp)]
    simp only [runCronLoop, h1, h2, h3, applyOutcome]
    simp
  refine ⟨deleteStartup (upsertRevenueMetrics st a mA.revenue mA.mrr) b,
    [.fetchCall a, .metricsWrite a, .fetchCall b, .startupDelete b, .fetchCall c],
    hrun, ?_, ?_, ?_, ?_, ?_, ?_, ?_⟩
  · show findMetricsRow
      ((upsertMetricsList st.metrics a mA.revenue mA.mrr).filter
        (fun r => ¬ r.startup_id = b)) a = _
    unfold findMetricsRow
    rw [findMetricsRow_filter_ne _ b a hab]
    exact findMetricsRow_upsert_self st.metrics a mA.revenue mA.mrr
  · show b ∉ st.startups.filter (fun i => ¬ i = b)
    simp [List.mem_filter]
  · show (st.api_keys.filter (fun r => ¬ r.startup_id = b)).find?
      (fun r => r.startup_id = b) = none
    exact findApiKey_filter_self st.api_keys b
  · show findMetricsRow
      ((upsertMetricsList st.metrics a mA.revenue mA.mrr).filter
        (fun r => ¬ r.startup_id = b)) b = none
    exact findMetricsRow_filter_self _ b
  · intro hc
    show c ∈ st.startups.filter (fun i => ¬ i = b)
    simp only [List.mem_filter]
    exact ⟨hc, by simpa using fun hh => hbc hh.symm⟩
  · show (st.api_keys.filter (fun r => ¬ r.startup_id = b)).find?
      (fun r => r.startup_id = c) = some ⟨c, tokC, some pidC⟩
    rw [findApiKey_filter_ne _ b c (fun hh => hbc hh.symm), hkeys]
    rw [List.find?_cons_of_neg _ (by simpa using hac),
        List.find?_cons_of_neg _ (by simpa using hbc),
        List.find?_cons_of_pos _ (by simp)]
  · show findMetricsRow
      ((upsertMetricsList st.metrics a mA.revenue mA.mrr).filter
        (fun r => ¬ r.startup_id = b)) c = findMetricsRow st.metrics c
    unfold findMetricsRow
    rw [findMetricsRow_filter_ne _ b c (fun hh => hbc hh.symm)]
    exact findMetricsRow_upsert_other st.metrics a c mA.revenue mA.mrr
      (fun hh => hac hh.symm)

/-- Witness for C1: the concrete three-entry run over `stThree` with the
oracle `httpThree` (success for entry 1, invalid credential for entry 2,
network failure for entry 3). -/
theorem cron_mixed_run_witness :
    ∃ stf evs,
      runCron toyCrypto (some ("k").toList) httpThree dbNoFail stThree =
        (stf, .completed ⟨1, 1, 1, [(3, ("boom").toList)]⟩, evs) ∧
      findMetricsRow stf.metrics 1 =
        some { startup_id := 1,
               total_revenue := (⟨3, 9⟩ : ParsedMetrics).revenue,
               mrr := (⟨3, 9⟩ : ParsedMetrics).mrr } ∧
      2 ∉ stf.startups ∧
      stf.api_keys.find? (fun r => r.startup_id = 2) = none ∧
      findMetricsRow stf.metrics 2 = none ∧
      (3 ∈ stThree.startups → 3 ∈ stf.startups) ∧
      stf.api_keys.find? (fun r => r.startup_id = 3) =
        some ⟨3, ("aa:bb:07:6162").toList, some ("pc").toList⟩ ∧
      findMetricsRow stf.metrics 3 = findMetricsRow stThree.metrics 3 :=
  cron_mixed_run toyCrypto (some ("k").toList) httpThree dbNoFail 1 2 3
    ("aa:bb:07:6162").toList ("aa:bb:07:6162").toList ("aa:bb:07:6162").toList
    ("pa").toList ("pb").toList ("pc").toList
    ("ab").toList ("ab").toList ("ab").toList ("boom").toList
    ⟨3, 9⟩ stThree rfl
    (by decide) (by decide) (by decide) (by decide) (by decide) (by decide)
    (by rfl) (by rfl) (by rfl) (by rfl) (by rfl) (by rfl) (by rfl) (by rfl)

/-! ## Registration Flow (src/pages/api/appstore/icon.ts POST) -/

/-- Result shape of the validators in src/lib/validation.ts.  The concrete
validators are sanitization boundaries the spec places out of scope; the
flow is parametric in them, keeping only their result contract. -/
structure ValidationResult where
  valid : Bool
  value : List Char
  error : List Char
deriving DecidableEq

/-- The six validators imported by the registration flow. -/
structure Validators where
  name : Option (List Char) → ValidationResult
  url : Option (List Char) → ValidationResult
  username : Option (List Char) → ValidationResult
  appStoreId : Option (List Char) → ValidationResult
  projectId : Option (List Char) → ValidationResult
  apiKey : Option (List Char) → ValidationResult

/-- The parsed request body of the registration POST; every field may be
absent. -/
structure RegRequest where
  name : Option (List Char)
  websiteUrl : Option (List Char)
  appStoreId : Option (List Char)
  founderUsername : Option (List Char)
  revenuecatApiKey : Option (List Char)
  projectId : Option (List Char)
deriving DecidableEq

/-- JavaScript truthiness of an optional string: absent and empty are
falsy. -/
def jsTruthyOpt : Option (List Char) → Bool
  | none => false
  | some s => ¬ s = []

/-- JavaScript whitespace for `String.prototype.trim` (the characters that
occur in practice). -/
def isJsSpace (ch : Char) : Bool :=
  ch == ' ' || ch == '\t' || ch == '\n' || ch == '\r'

/-- Model of `String.prototype.trim`. -/
def jsTrim (s : List Char) : List Char :=
  ((s.dropWhile isJsSpace).reverse.dropWhile isJsSpace).reverse

/-- Model of `isProjectIdTaken` in db.ts: falsy and all-whitespace project
ids are reported untaken; otherwise the api_keys table is probed for a row
with the trimmed id. -/
def isProjectIdTaken (st : DbState) (projectId : List Char) : Bool :=
  if projectId = [] then false
  else
    if jsTrim projectId = [] then false
    else st.api_keys.any (fun r => r.project_id = some (jsTrim projectId))

/-- Upsert on the api_keys list with conflict target startup_id
(`upsertApiKey` in db.ts). -/
def upsertApiKeyList (l : List StartupRow) (id : Nat) (tok : List Char)
    (pid : Option (List Char)) : List StartupRow :=
  if l.any (fun r => r.startup_id = id) then
    l.map (fun r => if r.startup_id = id then ⟨id, tok, pid⟩ else r)
  else l ++ [⟨id, tok, pid⟩]

/-- The `projectId || null` coercion applied by `upsertApiKey` in db.ts. -/
def storedProjectId (pid : List Char) : Option (List Char) :=
  if pid = [] then none else some pid

/-- The message of a thrown adapter error (`error.message`). -/
def JsError.messageText : JsError → List Char
  | .invalidApiKey => ("Invalid API key").toList
  | .generic m => m

/-- The catch-all of the registration POST hides internal detail: the raw
message is surfaced only when it mentions `API`. -/
def safeRegMessage (msg : List Char) : List Char :=
  if jsIncludes msg ("API").toList = true then msg
  else ("Failed to add startup. Please try again.").toList

/-- Externally observable side effects of one registration request. -/
inductive RegEvent where
  | rcValidateCall
  | rcFetchCall
  | startupCreate
  | encryptCall
  | apiKeyWrite
  | metricsWrite
deriving DecidableEq

/-- Injected persistence failures for the registration writes. -/
structure RegDbOracle where
  createStartupError : Option (List Char)
  upsertApiKeyError : Option (List Char)
  upsertMetricsError : Option (List Char)

/-- The responses of the registration POST: 429 rate limited, 400
validation failure, 409 duplicate project id, 400 invalid credentials, 500
catch-all, 201 created. -/
inductive RegResponse where
  | rateLimited
  | badRequest (msg : List Char)
  | conflict
  | invalidCredentials
  | serverError (msg : List Char)
  | created (startup_id : Nat) (metrics : ParsedMetrics)
deriving DecidableEq

/-- Model of the POST handler in icon.ts: rate limit, validate the six
inputs (the optional ones only when truthy), require at least one of app
store id and website, reject an already-registered project id with 409,
validate the credential against the adapter, then fetch metrics, create the
startup, encrypt and store the key, and write the initial metrics.  The
fresh startup id and the encryption randomness are explicit arguments;
thrown persistence and encryption errors reach the catch-all, which wraps
them with `safeRegMessage` (state already mutated by earlier steps stays
mutated — the source uses no transaction). -/
def registerStartup (V : Validators) (C : Crypto) (env : Option (List Char))
    (http : List Char → List Char → HttpResponse) (rdb : RegDbOracle)
    (rateAllowed : Bool) (newId : Nat) (salt iv : List Nat)
    (st : DbState) (req : RegRequest) : DbState × RegResponse × List RegEvent :=
  if ¬ rateAllowed then (st, .rateLimited, [])
  else if ¬ (V.name req.name).valid then (st, .badRequest (V.name req.name).error, [])
  else if ¬ (V.projectId req.projectId).valid then
    (st, .badRequest (V.projectId req.projectId).error, [])
  else if ¬ (V.apiKey req.revenuecatApiKey).valid then
    (st, .badRequest (V.apiKey req.revenuecatApiKey).error, [])
  else if jsTruthyOpt req.websiteUrl ∧ ¬ (V.url req.websiteUrl).valid then
    (st, .badRequest (V.url req.websiteUrl).error, [])
  else if jsTruthyOpt req.appStoreId ∧ ¬ (V.appStoreId req.appStoreId).valid then
    (st, .badRequest (V.appStoreId req.appStoreId).error, [])
  else if jsTruthyOpt req.founderUsername ∧ ¬ (V.username req.founderUsername).valid then
    (st, .badRequest (V.username req.founderUsername).error, [])
  else if ¬ jsTruthyOpt (if jsTruthyOpt req.appStoreId then
        some (V.appStoreId req.appStoreId).value else none) ∧
      ¬ jsTruthyOpt (if jsTruthyOpt req.websiteUrl then
        some (V.url req.websiteUrl).value else none) then
    (st, .badRequest
      ("Either App Store ID or Website is required (at least one to fetch the app icon)").toList,
     [])
  else if isProjectIdTaken st (V.projectId req.projectId).value then (st, .conflict, [])
  else if validateRevenueCatApiKey
      (http (V.apiKey req.revenuecatApiKey).value (V.projectId req.projectId).value)
      (V.projectId req.projectId).value = false then
    (st, .invalidCredentials, [.rcValidateCall])
  else
    match fetchRevenueCatMetrics
        (http (V.apiKey req.revenuecatApiKey).value (V.projectId req.projectId).value)
        (V.projectId req.projectId).value with
    | .error e =>
      (st, .serverError (safeRegMessage e.messageText), [.rcValidateCall, .rcFetchCall])
    | .ok metrics =>
      match rdb.createStartupError with
      | some m =>
        (st, .serverError (safeRegMessage (("Failed to create startup: ").toList ++ m)),
         [.rcValidateCall, .rcFetchCall])
      | none =>
        let st1 : DbState := { st with startups := st.startups ++ [newId] }
        match encryptApiKey C env salt iv (V.apiKey req.revenuecatApiKey).value with
        | .error m =>
          (st1, .serverError (safeRegMessage m), [.rcValidateCall, .rcFetchCall, .startupCreate])
        | .ok tok =>
          match rdb.upsertApiKeyError with
          | some m =>
            (st1, .serverError (safeRegMessage (("Failed to upsert API key: ").toList ++ m)),
             [.rcValidateCall, .rcFetchCall, .startupCreate, .encryptCall])
          | none =>
            let keys2 : List StartupRow :=
              upsertApiKeyList st1.api_keys newId tok
                (storedProjectId (V.projectId req.projectId).value)
            let st2 : DbState := { st1 with api_keys := keys2 }
            match rdb.upsertMetricsError with
            | some m =>
              (st2, .serverError
                (safeRegMessage (("Failed to upsert revenue metrics: ").toList ++ m)),
               [.rcValidateCall, .rcFetchCall, .startupCreate, .encryptCall, .apiKeyWrite])
            | none =>
              (upsertRevenueMetrics st2 newId metrics.revenue metrics.mrr,
               .created newId metrics,
               [.rcValidateCall, .rcFetchCall, .startupCreate, .encryptCall, .apiKeyWrite,
                .metricsWrite])

/-! ## Claim C8 -/

/-- Claim C8: a registration request whose project id (as validated) is
already present in a Credential Record is rejected before any credential
encryption or storage: the response is never 201 created, the datastore is
returned unchanged (so the project-id uniqueness invariant is preserved),
and no events at all are emitted — in particular no encrypt call and no
entry, api-key or metrics write. -/
theorem registration_duplicate_project_rejected (V : Validators) (C : Crypto)
    (env : Option (List Char)) (http : List Char → List Char → HttpResponse)
    (rdb : RegDbOracle) (rateAllowed : Bool) (newId : Nat) (salt iv : List Nat)
    (st : DbState) (req : RegRequest)
    (htaken : isProjectIdTaken st (V.projectId req.projectId).value = true) :
    ∃ resp, registerStartup V C env http rdb rateAllowed newId salt iv st req =
        (st, resp, []) ∧ ∀ i m, ¬ resp = RegResponse.created i m := by
  unfold registerStartup
  repeat
    first
      | exact ⟨_, rfl, fun i m h => by cases h⟩
      | exact absurd htaken (by assumption)
      | split

/-- The pass-through validators used by the C8 witness: every input is
accepted unchanged. -/
def idValidators : Validators where
  name := fun s => ⟨true, s.getD [], []⟩
  url := fun s => ⟨true, s.getD [], []⟩
  username := fun s => ⟨true, s.getD [], []⟩
  appStoreId := fun s => ⟨true, s.getD [], []⟩
  projectId := fun s => ⟨true, s.getD [], []⟩
  apiKey := fun s => ⟨true, s.getD [], []⟩

/-- Witness for C8: registering a request whose project id `p` is already
held by startup 6 in `stSix`. -/
theorem registration_duplicate_project_rejected_witness :
    ∃ resp, registerStartup idValidators toyCrypto (some ("k").toList) httpBoom
        ⟨none, none, none⟩ true 9 [0] [1] stSix
        ⟨some ("App").toList, none, some ("1").toList, none,
         some ("sk_x").toList, some ("p").toList⟩ =
        (stSix, resp, []) ∧ ∀ i m, ¬ resp = RegResponse.created i m :=
  registration_duplicate_project_rejected idValidators toyCrypto (some ("k").toList)
    httpBoom ⟨none, none, none⟩ true 9 [0] [1] stSix
    ⟨some ("App").toList, none, some ("1").toList, none,
     some ("sk_x").toList, some ("p").toList⟩ (by decide)
